import Mathlib

/-!
Verification of the semicad component-registry subsystem.

This file gives a shallow embedding, in Lean 4, of the parts of the
repository relevant to the component registry, the component cache, lazy
geometry building, geometry validation, and the electronics source adapter:

  * `semicad/core/registry.py`   — `ComponentRegistry`, `ComponentSource`,
    `_make_cache_key`, the LRU component cache and its statistics;
  * `semicad/core/component.py`  — the lazy `geometry` accessor and
    `Component.validate`;
  * `semicad/core/validation.py` — `validate_geometry` and its issue model;
  * `semicad/sources/electronics.py` — `validate_params`, `PARAM_SCHEMAS`,
    `COMPONENT_CATALOG`, `ElectronicsSource.get_component`,
    `AssemblyInfo.from_assembly` and the assembly-preserving component.

Python dictionaries are modelled as insertion-ordered association lists
(`List (String × _)`), matching CPython's ordered-dict semantics; the
`OrderedDict` cache of the registry is the same list with the head as the
least-recently-used entry.  Exceptions are modelled with `Except`; the
distinction the registry code makes between `KeyError`, plain `ValueError`
and the `ParameterValidationError` subclass is carried explicitly.
Python floats are modelled as rationals (`Rat`); no claim below depends on
float rounding.  Components themselves are opaque and identified by `Nat`.
-/

namespace SemiCad

/-- Decidable equality for `Except` (used to state and decide concrete facts
about exception-returning operations). -/
instance {ε α : Type} [DecidableEq ε] [DecidableEq α] : DecidableEq (Except ε α) := fun x y =>
  match x, y with
  | .ok a, .ok b =>
    if h : a = b then .isTrue (congrArg Except.ok h)
    else .isFalse (fun he => h (Except.ok.inj he))
  | .error a, .error b =>
    if h : a = b then .isTrue (congrArg Except.error h)
    else .isFalse (fun he => h (Except.error.inj he))
  | .ok _, .error _ => .isFalse (fun he => Except.noConfusion he)
  | .error _, .ok _ => .isFalse (fun he => Except.noConfusion he)

/-- A Python value as it appears in component parameter dictionaries.
Python booleans are a subclass of `int`; the `isInstance` predicate below
follows that. Floats are modelled as rationals. -/
inductive PyVal where
  | vint (n : Int)
  | vbool (b : Bool)
  | vfloat (q : Rat)
  | vstr (s : String)
deriving DecidableEq

/-- Python `repr` of a value (best effort: floats are rendered as rationals;
no claim depends on float rendering). -/
def PyVal.pyRepr : PyVal → String
  | .vint n => toString n
  | .vbool true => "True"
  | .vbool false => "False"
  | .vfloat q => toString q
  | .vstr s => "\x27" ++ s ++ "\x27"

/-- Python `str` of a value (strings are rendered without quotes). -/
def PyVal.pyStr : PyVal → String
  | .vint n => toString n
  | .vbool true => "True"
  | .vbool false => "False"
  | .vfloat q => toString q
  | .vstr s => s

/-- Lexicographic code-point comparison of character lists (the order
Python's `sorted` uses on strings). -/
def charListLt : List Char → List Char → Bool
  | _, [] => false
  | [], _ :: _ => true
  | a :: as, b :: bs =>
    if Nat.blt a.toNat b.toNat then true
    else if Nat.blt b.toNat a.toNat then false
    else charListLt as bs

/-- Python's `<` on strings (lexicographic by code point). -/
def strLt (a b : String) : Bool := charListLt a.data b.data

/-- Insert one key/value pair into a key-sorted item list (helper for
Python's `sorted(params.items())`; parameter keys are unique, so sorting
by key alone is faithful). -/
def insertItem (p : String × PyVal) : List (String × PyVal) → List (String × PyVal)
  | [] => [p]
  | q :: qs => if strLt p.1 q.1 then p :: q :: qs else q :: insertItem p qs

/-- `sorted(params.items())` for a parameter dictionary. -/
def sortItems : List (String × PyVal) → List (String × PyVal)
  | [] => []
  | p :: ps => insertItem p (sortItems ps)

/-- Insertion sort for `sorted(...)` over plain strings. -/
def insertStr (s : String) : List String → List String
  | [] => [s]
  | t :: ts => if strLt s t then s :: t :: ts else t :: insertStr s ts

/-- `sorted(...)` over plain strings. -/
def sortStrings : List String → List String
  | [] => []
  | s :: ss => insertStr s (sortStrings ss)

/-- Render a Python list of strings, e.g. `['bogus']`. -/
def pyStrList (l : List String) : String :=
  "[" ++ String.intercalate ", " (l.map (fun s => "\x27" ++ s ++ "\x27")) ++ "]"

/-- `registry._make_cache_key`: the component name alone when there are no
parameters, otherwise `name:k1=v1,k2=v2` over the key-sorted items. -/
def make_cache_key (name : String) (params : List (String × PyVal)) : String :=
  match params with
  | [] => name
  | _ =>
    let sortedItems := sortItems params
    name ++ ":" ++ String.intercalate "," (sortedItems.map (fun p => p.1 ++ "=" ++ p.2.pyRepr))

/-! ## The registry (`semicad/core/registry.py`) -/

/-- Outcome of one `ComponentSource.get_component` call, as observed by the
registry: a component, or one of the three exception classes the registry
code distinguishes (`KeyError`, plain `ValueError`, and the `ValueError`
subclass `ParameterValidationError`, told apart by class name). -/
inductive SourceResult where
  | success (component : Nat)
  | keyError (msg : String)
  | valueError (msg : String)
  | paramValidationError (msg : String)
deriving DecidableEq

/-- An exception escaping `ComponentRegistry.get` / `_get_uncached`. -/
inductive RegError where
  | keyError (msg : String)
  | valueError (msg : String)
  | paramValidationError (msg : String)
deriving DecidableEq

/-- A registered component source: its `name` property and its
`get_component` behaviour (a function of the requested name and params). -/
structure Source where
  name : String
  getComponent : String → List (String × PyVal) → SourceResult

/-- Re-raising a source's outcome unchanged (the fully-qualified-name branch
of `_get_uncached` does not catch anything). -/
def raiseResult : SourceResult → Except RegError Nat
  | .success c => .ok c
  | .keyError m => .error (.keyError m)
  | .valueError m => .error (.valueError m)
  | .paramValidationError m => .error (.paramValidationError m)

/-- The short-name fallback loop of `_get_uncached` (registry.py lines
212-236).  `KeyError` means "not in this source, try the next";
`ParameterValidationError` propagates immediately; any other `ValueError`
is remembered in `last_value_error` and the loop continues.  After the
loop, a remembered `ValueError` is raised if there was one, otherwise a
`KeyError` naming the original short name. -/
def short_name_loop (name : String) (params : List (String × PyVal)) :
    List Source → Option String → Except RegError Nat
  | [], lastValueError =>
    match lastValueError with
    | some m => .error (.valueError m)
    | none => .error (.keyError ("Component not found: " ++ name))
  | s :: rest, lastValueError =>
    match s.getComponent name params with
    | .success c => .ok c
    | .keyError _ => short_name_loop name params rest lastValueError
    | .paramValidationError m => .error (.paramValidationError m)
    | .valueError m => short_name_loop name params rest (some m)

/-- Python `full_name.split("/")` over the character list: split groups at
every slash (a structurally recursive translation, so that concrete runs
reduce). -/
def splitSlashChars : List Char → List (List Char)
  | [] => [[]]
  | c :: rest =>
    let r := splitSlashChars rest
    if c = '/' then [] :: r
    else
      match r with
      | [] => [[c]]
      | g :: gs => (c :: g) :: gs

/-- Python `full_name.split("/")`. -/
def splitSlash (s : String) : List String :=
  (splitSlashChars s.data).map (fun cs => String.mk cs)

/-- `ComponentRegistry._get_uncached`: names with at least two `/` separators
whose first segment is a registered source delegate directly to that source;
everything else goes through the short-name fallback loop. -/
def get_uncached (sources : List Source) (fullName : String)
    (params : List (String × PyVal)) : Except RegError Nat :=
  let parts := splitSlash fullName
  if 3 ≤ parts.length then
    match sources.find? (fun s => s.name == parts.headD "") with
    | some s => raiseResult (s.getComponent (parts.getLastD "") params)
    | none => short_name_loop fullName params sources none
  else short_name_loop fullName params sources none

/-- Remove every entry with the given key from an association list. -/
def eraseKey {α : Type} (d : List (String × α)) (k : String) : List (String × α) :=
  d.filter (fun p => p.1 != k)

/-- Python dict item assignment `d[k] = v`: replace in place when the key is
present, else append. -/
def dictSet {α : Type} (d : List (String × α)) (k : String) (v : α) : List (String × α) :=
  if d.any (fun p => p.1 == k) then d.map (fun p => if p.1 == k then (k, v) else p)
  else d ++ [(k, v)]

/-- `OrderedDict.move_to_end(k)`: move the entry for `k` (if any) to the
most-recently-used end, keeping its value. -/
def move_to_end {α : Type} (d : List (String × α)) (k : String) : List (String × α) :=
  match List.lookup k d with
  | some v => eraseKey d k ++ [(k, v)]
  | none => d

/-- `d[k] = v` immediately followed by `d.move_to_end(k)`: the entry for `k`
ends up at the most-recently-used end with the new value. -/
def set_move_to_end {α : Type} (d : List (String × α)) (k : String) (v : α) :
    List (String × α) :=
  eraseKey d k ++ [(k, v)]

/-- `while len(cache) > max_size: cache.popitem(last=False)` — pop
least-recently-used entries (the head) until back within capacity. -/
def evict_oldest {α : Type} (d : List (String × α)) (maxSize : Nat) : List (String × α) :=
  d.drop (d.length - maxSize)

/-- `ComponentRegistry` state: registered sources (ordered dict keyed by
source name), the LRU cache (head = least recently used), its capacity and
the hit/miss counters. -/
structure Registry where
  sources : List Source
  cache : List (String × Nat)
  cacheMaxSize : Nat
  cacheHits : Nat
  cacheMisses : Nat

/-- `ComponentRegistry.DEFAULT_CACHE_SIZE`. -/
def DEFAULT_CACHE_SIZE : Nat := 128

/-- A fresh registry with the given cache capacity and no sources. -/
def Registry.empty (cacheSize : Nat) : Registry := ⟨[], [], cacheSize, 0, 0⟩

/-- `register_source`: keyed by `source.name`; overwriting an existing name
keeps its position, a new name is appended (Python dict semantics). -/
def Registry.register_source (r : Registry) (s : Source) : Registry :=
  if r.sources.any (fun t => t.name == s.name) then
    { r with sources := r.sources.map (fun t => if t.name == s.name then s else t) }
  else
    { r with sources := r.sources ++ [s] }

/-- `CacheStats` as reported by `cache_stats()`. -/
structure CacheStats where
  hits : Nat
  misses : Nat
  size : Nat
  maxSize : Nat
deriving DecidableEq

/-- `ComponentRegistry.cache_stats`. -/
def Registry.cache_stats (r : Registry) : CacheStats :=
  ⟨r.cacheHits, r.cacheMisses, r.cache.length, r.cacheMaxSize⟩

/-- `ComponentRegistry.clear_cache` (returns the number of cleared items). -/
def Registry.clear_cache (r : Registry) : Nat × Registry :=
  (r.cache.length, { r with cache := [] })

/-- `ComponentRegistry.get`: cache lookup, hit/miss accounting, fallback to
`_get_uncached`, and LRU insertion/eviction.  Returns the outcome together
with the updated registry state.  Note that the miss counter is incremented
on every call that is not a cache hit — including `use_cache = false` calls
and calls on which `_get_uncached` raises (the increment happens before the
exception propagates). -/
def Registry.get (r : Registry) (fullName : String) (useCache : Bool)
    (params : List (String × PyVal)) : Except RegError Nat × Registry :=
  let cacheKey := make_cache_key fullName params
  match useCache, List.lookup cacheKey r.cache with
  | true, some component =>
    (.ok component,
      { r with cacheHits := r.cacheHits + 1, cache := move_to_end r.cache cacheKey })
  | _, _ =>
    let r1 := { r with cacheMisses := r.cacheMisses + 1 }
    match get_uncached r.sources fullName params with
    | .error e => (.error e, r1)
    | .ok component =>
      if useCache then
        (.ok component,
          { r1 with
              cache := evict_oldest (set_move_to_end r1.cache cacheKey component)
                r1.cacheMaxSize })
      else (.ok component, r1)

/-- Run a sequence of `get` calls with `use_cache = true` and no parameters,
keeping only the registry state (used to state the LRU claims). -/
def runGets (r : Registry) (names : List String) : Registry :=
  names.foldl (fun acc n => (acc.get n true []).2) r

/-- Run a sequence of arbitrary `get` calls (name, use_cache, params),
keeping only the registry state (used to state the counter claims). -/
def runCalls (r : Registry) (calls : List (String × Bool × List (String × PyVal))) :
    Registry :=
  calls.foldl (fun acc c => (acc.get c.1 c.2.1 c.2.2).2) r

/-- Does the short-name loop keep searching after this source outcome?
True exactly for `KeyError` and plain `ValueError`. -/
def continues_after : SourceResult → Bool
  | .keyError _ => true
  | .valueError _ => true
  | _ => false

/-! ## Lazy geometry (`semicad/core/component.py`) -/

/-- The lazy-geometry state of a `Component`: the `_geometry` slot plus an
instrumentation counter for the number of `build()` invocations (the spec's
"counter incremented inside `build()`"). -/
structure LazyGeom (G : Type) where
  geometryCache : Option G
  buildCount : Nat
deriving DecidableEq

/-- A freshly constructed component: `_geometry = None`, no builds yet. -/
def LazyGeom.fresh {G : Type} : LazyGeom G := ⟨none, 0⟩

/-- One access to the `geometry` property: build and store on first access,
return the stored object afterwards. -/
def geomAccess {G : Type} (buildResult : G) (s : LazyGeom G) : G × LazyGeom G :=
  match s.geometryCache with
  | some g => (g, s)
  | none => (buildResult, ⟨some buildResult, s.buildCount + 1⟩)

/-- `n` successive accesses to `geometry`, collecting the returned objects. -/
def geomAccessRun {G : Type} (buildResult : G) (s : LazyGeom G) :
    Nat → List G × LazyGeom G
  | 0 => ([], s)
  | n + 1 =>
    let r1 := geomAccess buildResult s
    let rest := geomAccessRun buildResult r1.2 n
    (r1.1 :: rest.1, rest.2)

/-! ## Geometry validation (`semicad/core/validation.py`) -/

/-- `IssueSeverity`. -/
inductive Severity where
  | error
  | warning
  | info
deriving DecidableEq

/-- `ValidationIssue` (the `details` dict is carried as rational-valued
items, matching the numeric payloads the code stores there). -/
structure Issue where
  severity : Severity
  code : String
  message : String
  details : List (String × Rat) := []
deriving DecidableEq

/-- `ValidationResult`. -/
structure ValidationResult where
  component_name : String
  is_valid : Bool
  issues : List Issue
  bbox_size : Option (Rat × Rat × Rat) := none
  solid_count : Nat := 0
  face_count : Nat := 0
deriving DecidableEq

/-- `ValidationResult.has_errors`. -/
def ValidationResult.has_errors (r : ValidationResult) : Bool :=
  r.issues.any (fun i => i.severity == Severity.error)

/-- Outcome of the OCC validity check (check 6): the `BRepCheck_Analyzer`
module may be unavailable, the analyzer may accept or reject the shape, or
the check itself may raise. -/
inductive OccProbe where
  | notAvailable
  | valid
  | invalid
  | failed (msg : String)
deriving DecidableEq

/-- What the CadQuery/OCC layer reports about a non-empty shape: each `try`
block of `validate_geometry` is an input that either yields a value or
raises. -/
structure ShapeProbe where
  solids : Option Nat
  faces : Option Nat
  bbox : Except String (Rat × Rat × Rat)
  occ : OccProbe
deriving DecidableEq

/-- Accessing the underlying shapes (check 1): raising, empty, or a shape. -/
inductive ShapeAccess where
  | raises (msg : String)
  | empty
  | shape (s : ShapeProbe)
deriving DecidableEq

/-- A CadQuery `Workplane` as seen by `validate_geometry`: the observable
behaviour of its probes. -/
structure Workplane where
  probe : ShapeAccess
deriving DecidableEq

/-- Validation thresholds (mm). -/
def MAX_DIMENSION : Rat := 2000

/-- Validation thresholds (mm). -/
def MIN_DIMENSION : Rat := 1 / 100

/-- `validate_geometry` (validation.py lines 71-227), translated check by
check.  The two early returns produce `is_valid = false` with the single
blocking issue; the final return computes `is_valid` as "no error-severity
issue recorded". -/
def validate_geometry (geometry : Workplane) (name : String)
    (max_dimension min_dimension : Rat) : ValidationResult :=
  match geometry.probe with
  | .raises m =>
    { component_name := name, is_valid := false,
      issues := [{ severity := .error, code := "GEOMETRY_ACCESS_FAILED",
                   message := "Failed to access geometry: " ++ m }] }
  | .empty =>
    { component_name := name, is_valid := false,
      issues := [{ severity := .error, code := "EMPTY_GEOMETRY",
                   message := "Geometry contains no shapes" }] }
  | .shape s =>
    let solidCount := s.solids.getD 0
    let issues2 : List Issue :=
      match s.solids with
      | some 0 => [{ severity := .error, code := "NO_SOLIDS",
                     message := "Geometry has no solid bodies" }]
      | _ => []
    let faceCount := s.faces.getD 0
    let issues3 : List Issue :=
      match s.faces with
      | some 0 =>
        if 0 < solidCount then
          [{ severity := .warning, code := "NO_FACES", message := "Solid has no faces" }]
        else []
      | _ => []
    let issues4 : List Issue :=
      if 1 < solidCount then
        [{ severity := .info, code := "MULTIPLE_SOLIDS",
           message := "Geometry contains " ++ toString solidCount ++ " separate solids",
           details := [("solid_count", (solidCount : Rat))] }]
      else []
    let issues5 : List Issue :=
      match s.bbox with
      | .ok dims =>
        let maxDim := max dims.1 (max dims.2.1 dims.2.2)
        let minDim := min dims.1 (min dims.2.1 dims.2.2)
        (if max_dimension < maxDim then
          [{ severity := .warning, code := "OVERSIZED",
             message := "Bounding box dimension (" ++ toString maxDim ++ "mm) exceeds "
               ++ toString max_dimension ++ "mm",
             details := [("max_dimension", maxDim), ("threshold", max_dimension)] }]
         else []) ++
        (if minDim < min_dimension then
          [{ severity := .warning, code := "UNDERSIZED",
             message := "Bounding box dimension (" ++ toString minDim ++ "mm) below "
               ++ toString min_dimension ++ "mm",
             details := [("min_dimension", minDim), ("threshold", min_dimension)] }]
         else [])
      | .error m =>
        [{ severity := .warning, code := "BBOX_FAILED",
           message := "Could not compute bounding box: " ++ m }]
    let issues6 : List Issue :=
      match s.occ with
      | .notAvailable => []
      | .valid => []
      | .invalid =>
        [{ severity := .error, code := "INVALID_SHAPE",
           message :=
             "OCC reports shape is invalid (may have self-intersections or other issues)" }]
      | .failed m =>
        [{ severity := .warning, code := "OCC_CHECK_FAILED",
           message := "Could not perform OCC validity check: " ++ m }]
    let issues := issues2 ++ issues3 ++ issues4 ++ issues5 ++ issues6
    { component_name := name,
      is_valid := !(issues.any (fun i => i.severity == Severity.error)),
      issues := issues,
      bbox_size := match s.bbox with | .ok dims => some dims | .error _ => none,
      solid_count := solidCount,
      face_count := faceCount }

/-- `Component.validate` (component.py lines 87-141): default thresholds,
then either the geometry builds and is validated, or the build raises and
the exception is converted into a single `BUILD_FAILED` error issue. -/
def component_validate (name : String) (buildOutcome : Except String Workplane)
    (max_dimension min_dimension : Option Rat) : ValidationResult :=
  let maxDim := max_dimension.getD MAX_DIMENSION
  let minDim := min_dimension.getD MIN_DIMENSION
  match buildOutcome with
  | .ok geom => validate_geometry geom name maxDim minDim
  | .error e =>
    { component_name := name, is_valid := false,
      issues := [{ severity := .error, code := "BUILD_FAILED",
                   message := "Failed to build geometry: " ++ e }] }

/-! ## Electronics parameter validation (`semicad/sources/electronics.py`) -/

/-- An entry of a `PARAM_SCHEMAS` type constraint: `int`, `bool`, or the
tuple `(int, float)` used by the schemas. -/
inductive PyType where
  | tInt
  | tBool
  | tIntFloat
deriving DecidableEq

/-- The type name rendered in error messages (tuples are joined with
" or ", per the code). -/
def PyType.typeName : PyType → String
  | .tInt => "int"
  | .tBool => "bool"
  | .tIntFloat => "int or float"

/-- Python `isinstance(value, expected_type)`; a `bool` is an instance of
`int` (bool is a subclass of int in Python). -/
def PyVal.isInstance : PyVal → PyType → Bool
  | .vint _, .tInt => true
  | .vbool _, .tInt => true
  | .vbool _, .tBool => true
  | .vint _, .tIntFloat => true
  | .vbool _, .tIntFloat => true
  | .vfloat _, .tIntFloat => true
  | _, _ => false

/-- `type(value).__name__` for a parameter value. -/
def PyVal.typeName : PyVal → String
  | .vint _ => "int"
  | .vbool _ => "bool"
  | .vfloat _ => "float"
  | .vstr _ => "str"

/-- `isinstance(value, (int, float)) and not isinstance(value, bool)`:
the numeric content used by the range checks. -/
def PyVal.numericValue : PyVal → Option Rat
  | .vint n => some (n : Rat)
  | .vfloat q => some q
  | _ => none

/-- One parameter's schema entry: optional type, optional min/max bounds,
and the required flag. -/
structure ParamSchema where
  type? : Option PyType := none
  min? : Option Rat := none
  max? : Option Rat := none
  required : Bool := false
deriving DecidableEq

/-- `PARAM_SCHEMAS`, translated entry by entry. -/
def PARAM_SCHEMAS : List (String × List (String × ParamSchema)) :=
  [("RPi3b", [("simple", { type? := some .tBool })]),
   ("PinHeader",
     [("rows", { type? := some .tInt, min? := some 1, max? := some 100 }),
      ("columns", { type? := some .tInt, min? := some 1, max? := some 100 }),
      ("above", { type? := some .tIntFloat, min? := some 0 }),
      ("below", { type? := some .tIntFloat, min? := some 0 }),
      ("simple", { type? := some .tBool })]),
   ("JackSurfaceMount",
     [("length", { type? := some .tIntFloat, min? := some (1 / 10) }),
      ("simple", { type? := some .tBool })]),
   ("BGA",
     [("length", { type? := some .tIntFloat, min? := some (1 / 10), required := true }),
      ("width", { type? := some .tIntFloat, min? := some (1 / 10), required := true }),
      ("height", { type? := some .tIntFloat, min? := some (1 / 10) }),
      ("simple", { type? := some .tBool })]),
   ("DinClip", []),
   ("TopHat",
     [("length", { type? := some .tIntFloat, min? := some (1 / 10), required := true }),
      ("depth", { type? := some .tIntFloat, min? := some (1 / 10) }),
      ("slots", { type? := some .tBool })]),
   ("PiTrayClip", [])]

/-- The unknown-parameter error message recorded by `validate_params` when
`strict` is set and unknown keys were provided. -/
def unknown_params_msg (componentName : String) (unknownSorted knownKeys : List String) :
    String :=
  "Unknown parameter(s) for " ++ componentName ++ ": " ++ pyStrList unknownSorted
    ++ ". Valid parameters: "
    ++ (if knownKeys.isEmpty then "none" else pyStrList (sortStrings knownKeys))

/-- The type-mismatch error message. -/
def type_error_msg (paramName : String) (t : PyType) (v : PyVal) : String :=
  "Parameter \x27" ++ paramName ++ "\x27 must be " ++ t.typeName ++ ", got "
    ++ v.typeName ++ " (" ++ v.pyRepr ++ ")"

/-- The below-minimum error message. -/
def min_error_msg (paramName : String) (m v : Rat) : String :=
  "Parameter \x27" ++ paramName ++ "\x27 must be >= " ++ toString m
    ++ ", got " ++ toString v

/-- The above-maximum error message. -/
def max_error_msg (paramName : String) (m v : Rat) : String :=
  "Parameter \x27" ++ paramName ++ "\x27 must be <= " ++ toString m
    ++ ", got " ++ toString v

/-- The max-bound half of the range check of `validate_params` (applies to
numeric non-bool values once the min bound passed). -/
def vp_range_max (ps : ParamSchema) (acc : List String × List (String × PyVal))
    (p : String × PyVal) : List String × List (String × PyVal) :=
  match p.2.numericValue with
  | some v =>
    match ps.max? with
    | some m =>
      if m < v then (acc.1 ++ [max_error_msg p.1 m v], acc.2)
      else (acc.1, acc.2 ++ [p])
    | none => (acc.1, acc.2 ++ [p])
  | none => (acc.1, acc.2 ++ [p])

/-- The range check of `validate_params`: min bound then max bound; a
violation records one error and skips the parameter. -/
def vp_range (ps : ParamSchema) (acc : List String × List (String × PyVal))
    (p : String × PyVal) : List String × List (String × PyVal) :=
  match p.2.numericValue with
  | some v =>
    match ps.min? with
    | some m =>
      if v < m then (acc.1 ++ [min_error_msg p.1 m v], acc.2)
      else vp_range_max ps acc p
    | none => vp_range_max ps acc p
  | none => (acc.1, acc.2 ++ [p])

/-- One iteration of the `for param_name, value in params.items()` loop of
`validate_params`: skip unknown parameters, then type check, then range
check; a failed check records one error message, a passed parameter is
appended to `validated_params`. -/
def vp_step (schema : List (String × ParamSchema)) (known : List String)
    (acc : List String × List (String × PyVal)) (p : String × PyVal) :
    List String × List (String × PyVal) :=
  match known.contains p.1 with
  | false => acc
  | true =>
    let ps := (List.lookup p.1 schema).getD {}
    match ps.type? with
    | some t =>
      if p.2.isInstance t then vp_range ps acc p
      else (acc.1 ++ [type_error_msg p.1 t p.2], acc.2)
    | none => vp_range ps acc p

/-- `validate_params` (electronics.py lines 199-278).  Returns the filtered
validated parameters, or the list of all recorded problem descriptions.
The single `ParameterValidationError` the Python code raises carries the
message `validation_error_msg name errors` built from exactly that list. -/
def validate_params (component_name : String) (params : List (String × PyVal))
    (strict : Bool) : Except (List String) (List (String × PyVal)) :=
  let schema := (List.lookup component_name PARAM_SCHEMAS).getD []
  let known := schema.map Prod.fst
  let unknownSorted :=
    sortStrings (((params.map Prod.fst).filter (fun k => !(known.contains k))).dedup)
  let errors0 :=
    if !unknownSorted.isEmpty && strict then
      [unknown_params_msg component_name unknownSorted known]
    else []
  let res := params.foldl (vp_step schema known) (errors0, [])
  if res.1.isEmpty then .ok res.2 else .error res.1

/-- The message of the aggregated `ParameterValidationError`: a header plus
every individual problem, one per line. -/
def validation_error_msg (component_name : String) (errors : List String) : String :=
  "Invalid parameters for " ++ component_name ++ ":\n  - "
    ++ String.intercalate "\n  - " errors

/-! ## The electronics source (`semicad/sources/electronics.py`) -/

/-- `MIN_CQ_ELECTRONICS_VERSION`. -/
def MIN_CQ_ELECTRONICS_VERSION : String := "0.2.0"

/-- One loaded `_available_components` entry (the backing class itself is
opaque; its catalog metadata is what `get_component` consumes). -/
structure CatalogEntry where
  category : String
  description : String
  required : List String
  defaults : List (String × PyVal)
deriving DecidableEq

/-- `COMPONENT_CATALOG`, as loaded into `_available_components` when all
the backing imports succeed, translated entry by entry. -/
def ELEC_CATALOG : List (String × CatalogEntry) :=
  [("RPi3b", ⟨"board", "Raspberry Pi 3B single-board computer", [],
      [("simple", .vbool true)]⟩),
   ("PinHeader", ⟨"connector", "Through-hole pin header", [],
      [("rows", .vint 1), ("columns", .vint 1), ("above", .vint 7), ("below", .vint 3),
       ("simple", .vbool true)]⟩),
   ("JackSurfaceMount", ⟨"connector", "RJ45 Ethernet jack (surface mount)", [],
      [("length", .vint 21), ("simple", .vbool true)]⟩),
   ("BGA", ⟨"smd", "Ball Grid Array chip package", ["length", "width"],
      [("height", .vint 1), ("simple", .vbool true)]⟩),
   ("DinClip", ⟨"mechanical", "DIN rail mounting clip", [], []⟩),
   ("TopHat", ⟨"mechanical", "Top-hat (TH35) DIN rail section", ["length"],
      [("depth", .vfloat (15 / 2)), ("slots", .vbool true)]⟩),
   ("PiTrayClip", ⟨"mounting",
      "Raspberry Pi mounting tray clip for enclosures (76x20x15mm)", [], []⟩)]

/-- An exception escaping `ElectronicsSource.get_component`; the
`paramValidationError` carries the enumerated problems of the aggregated
message. -/
inductive ElecError where
  | keyError (msg : String)
  | valueError (msg : String)
  | paramValidationError (errors : List String)
deriving DecidableEq

/-- The not-found message of `get_component`. -/
def elec_not_found_msg (name : String) (version : Option String) : String :=
  let versionInfo :=
    match version with
    | some v => " (installed: " ++ v ++ ")"
    | none => " (not installed)"
  "Component not found in cq_electronics: " ++ name ++ versionInfo
    ++ ". Minimum version: " ++ MIN_CQ_ELECTRONICS_VERSION

/-- The `schema_info` entries of the missing-required-parameters message:
`"param: typename"` when the schema declares a type, else the bare name. -/
def required_schema_info (name : String) (required : List String) : List String :=
  let schema := (List.lookup name PARAM_SCHEMAS).getD []
  required.map (fun p =>
    match List.lookup p schema with
    | some ps =>
      match ps.type? with
      | some t => p ++ ": " ++ t.typeName
      | none => p
    | none => p)

/-- The missing-required-parameters message of `get_component`. -/
def missing_params_msg (name : String) (missing : List String) : String :=
  "Missing required parameters for " ++ name ++ ": " ++ pyStrList missing
    ++ ". Required: [" ++ String.intercalate ", " (required_schema_info name missing) ++ "]"

/-- `{**a, **b}` for Python dicts as ordered association lists: start from
`a` and apply each item of `b` with dict-assignment semantics. -/
def mergeDicts {α : Type} (a b : List (String × α)) : List (String × α) :=
  b.foldl (fun d p => dictSet d p.1 p.2) a

/-- The data of a constructed `ElectronicsComponent` that `get_component`
determines: the instance name of its spec and the final merged parameters
(passed to both the spec and the backing class). -/
structure ElecComponentData where
  spec_name : String
  category : String
  description : String
  params : List (String × PyVal)
deriving DecidableEq

/-- `ElectronicsSource.get_component` (electronics.py lines 694-786):
not-found check, required-parameter check, `validate_params`, then the
merge `final = {**defaults, **validated}` and spec construction. -/
def elec_get_component (available : List (String × CatalogEntry))
    (version : Option String) (name : String) (strict : Bool)
    (params : List (String × PyVal)) : Except ElecError ElecComponentData :=
  match List.lookup name available with
  | none => .error (.keyError (elec_not_found_msg name version))
  | some entry =>
    let missing := entry.required.filter (fun p => !(params.any (fun q => q.1 == p)))
    if !missing.isEmpty then
      .error (.valueError (missing_params_msg name missing))
    else
      match validate_params name params strict with
      | .error errs => .error (.paramValidationError errs)
      | .ok validated =>
        let finalParams := mergeDicts entry.defaults validated
        let paramStr :=
          String.intercalate "_"
            ((sortItems validated).map (fun p => p.1 ++ "=" ++ p.2.pyStr))
        let instanceName := if paramStr == "" then name else name ++ "_" ++ paramStr
        .ok ⟨instanceName, entry.category, entry.description, finalParams⟩

/-! ## Assembly preservation (`semicad/sources/electronics.py`, with the
CadQuery `Assembly` dependency modelled) -/

/-- An RGBA colour with components in 0-1. -/
abbrev RGBA := Rat × Rat × Rat × Rat

/-- A direct child of a CadQuery assembly as created by
`Assembly.add(shape, name=..., color=...)`: a named, optionally coloured
leaf. -/
structure CqChild where
  name : String
  color : Option RGBA
deriving DecidableEq

/-- Modelled from the cadquery dependency (not part of this repository):
a single-level `cq.Assembly` — a named root whose children are the added
parts.  This is the shape of every assembly the electronics backing
objects produce in the repository's scenarios and tests. -/
structure CqAssembly where
  name : String
  children : List CqChild
deriving DecidableEq

/-- Modelled from the cadquery dependency (not part of this repository):
`Assembly.traverse()` yields `(name, assembly)` pairs for each child's
subtree bottom-up and then for the assembly itself, so for a single-level
assembly it yields the children in insertion order followed by the root.
The repository's own tests acknowledge this ("Assembly.traverse() returns
parts differently", "Depends on traverse behavior"). -/
def CqAssembly.traverseNames (a : CqAssembly) : List String :=
  a.children.map CqChild.name ++ [a.name]

/-- `PartInfo` (electronics.py lines 96-109, without the derived
`color_hex` helper). -/
structure PartInfo where
  name : String
  color : Option RGBA
deriving DecidableEq

/-- `AssemblyInfo`. -/
structure AssemblyInfo where
  parts : List PartInfo
deriving DecidableEq

/-- The inner loop of `AssemblyInfo.from_assembly`: find the direct child
with the given name and take its colour (breaking on the first name
match). -/
def find_child_color (children : List CqChild) (name : String) : Option RGBA :=
  match children.find? (fun c => c.name == name) with
  | some c => c.color
  | none => none

/-- `AssemblyInfo.from_assembly` (electronics.py lines 123-136): one
`PartInfo` per traversed name, with the colour found among the direct
children. -/
def AssemblyInfo.from_assembly (asm : CqAssembly) : AssemblyInfo :=
  ⟨asm.traverseNames.map (fun n => ⟨n, find_child_color asm.children n⟩)⟩

/-- `AssemblyInfo.part_names`. -/
def AssemblyInfo.part_names (info : AssemblyInfo) : List String :=
  info.parts.map PartInfo.name

/-- `AssemblyInfo.get_color_map`: the dict comprehension
`{p.name: p.color for p in parts if p.color is not None}` built in
iteration order with dict-assignment semantics. -/
def AssemblyInfo.get_color_map (info : AssemblyInfo) : List (String × RGBA) :=
  info.parts.foldl
    (fun d p => match p.color with | some c => dictSet d p.name c | none => d) []

/-- What `instance.cq_object` yields: an assembly, or already a plain
workplane (opaque). -/
inductive CqObject where
  | assembly (a : CqAssembly)
  | workplane (w : Nat)
deriving DecidableEq

/-- The workplane `ElectronicsComponent.build` returns: the flattened
compound of an assembly, or the plain workplane unchanged. -/
inductive WorkplaneGeom where
  | fromCompound (a : CqAssembly)
  | plain (w : Nat)
deriving DecidableEq

/-- The mutable state of an `ElectronicsComponent` relevant to assembly
preservation: the backing `cq_object` and the `_geometry`, `_assembly`,
`_assembly_info` slots. -/
structure ElecCompState where
  cq_object : CqObject
  geometry : Option WorkplaneGeom := none
  assembly : Option CqAssembly := none
  assembly_info : Option AssemblyInfo := none
deriving DecidableEq

/-- `ElectronicsComponent.build` (electronics.py lines 427-454): an
assembly result is retained in `_assembly`, its metadata extracted into
`_assembly_info`, and a flattened workplane is returned; a plain workplane
is returned as is. -/
def ElecCompState.build (s : ElecCompState) : WorkplaneGeom × ElecCompState :=
  match s.cq_object with
  | .assembly a =>
    (.fromCompound a,
      { s with assembly := some a,
               assembly_info := some (AssemblyInfo.from_assembly a) })
  | .workplane w => (.plain w, s)

/-- The lazy `geometry` property applied to an electronics component:
build and store on first access. -/
def ElecCompState.geometry_access (s : ElecCompState) : WorkplaneGeom × ElecCompState :=
  match s.geometry with
  | some g => (g, s)
  | none =>
    let r := s.build
    (r.1, { r.2 with geometry := some r.1 })

/-- The `assembly` / `assembly_info` properties first trigger a geometry
access when the component has not been built yet. -/
def ElecCompState.ensure_built (s : ElecCompState) : ElecCompState :=
  if s.geometry.isNone then s.geometry_access.2 else s

/-- `ElectronicsComponent.list_parts`. -/
def ElecCompState.list_parts (s : ElecCompState) : List String :=
  match s.ensure_built.assembly_info with
  | some info => info.part_names
  | none => []

/-- `ElectronicsComponent.get_color_map`. -/
def ElecCompState.get_color_map (s : ElecCompState) : List (String × RGBA) :=
  match s.ensure_built.assembly_info with
  | some info => info.get_color_map
  | none => []

/-- The cache contents produced by caching each of `names` (no parameters)
with component ids given by `f`, in order. -/
def cacheEntries (names : List String) (f : String → Nat) : List (String × Nat) :=
  names.map (fun n => (n, f n))

/-- The spec's LRU-protection scenario: starting from an empty registry of
capacity `mid.length + 2`, fill the cache with `k0, k1, mid…`, re-access
`k0` (a cache hit), then `get` one more fresh key `kN`. -/
def lru_hit_scenario (srcs : List Source) (k0 k1 : String) (mid : List String)
    (kN : String) : Registry :=
  (((runGets ⟨srcs, [], mid.length + 2, 0, 0⟩ (k0 :: k1 :: mid)).get
      k0 true []).2.get kN true []).2

/-! ## Helper lemmas -/

theorem lookup_append_chain {α : Type} (k : String) (d1 d2 : List (String × α)) :
    List.lookup k (d1 ++ d2) =
      match List.lookup k d1 with
      | some v => some v
      | none => List.lookup k d2 := by
  rw [List.lookup_append]
  cases List.lookup k d1 <;> rfl

theorem lookup_eq_none_of_not_mem_keys {α : Type} (d : List (String × α)) (k : String)
    (h : k ∉ d.map Prod.fst) : List.lookup k d = none := by
  rw [List.lookup_eq_none_iff]
  intro p hp
  have hmem : p.1 ∈ d.map Prod.fst := List.mem_map_of_mem Prod.fst hp
  simp only [bne_iff_ne, ne_eq]
  rintro rfl
  exact h hmem

theorem eraseKey_of_lookup_none {α : Type} (d : List (String × α)) (k : String)
    (h : List.lookup k d = none) : eraseKey d k = d := by
  rw [List.lookup_eq_none_iff] at h
  unfold eraseKey
  rw [List.filter_eq_self]
  intro p hp
  have hne := h p hp
  simp only [bne_iff_ne, ne_eq] at hne ⊢
  exact fun he => hne he.symm

theorem lookup_cacheEntries_none (names : List String) (f : String → Nat) (k : String)
    (h : k ∉ names) : List.lookup k (cacheEntries names f) = none := by
  apply lookup_eq_none_of_not_mem_keys
  simpa [cacheEntries, List.map_map, Function.comp] using h

/-! ## C6 — build-once laziness -/

theorem geomAccessRun_built {G : Type} (g : G) (c : Nat) (n : Nat) :
    geomAccessRun g ⟨some g, c⟩ n = (List.replicate n g, ⟨some g, c⟩) := by
  induction n with
  | zero => rfl
  | succ n ih => simp [geomAccessRun, geomAccess, ih, List.replicate]

/-- C6: for every component, the first `geometry` access invokes `build()`
exactly once and stores the result; after any positive number of accesses
the build counter is exactly 1 and every access returned the stored build
result. -/
theorem c6_build_once {G : Type} (g : G) (n : Nat) (h : 1 ≤ n) :
    (geomAccessRun g LazyGeom.fresh n).2.buildCount = 1 ∧
    (geomAccessRun g LazyGeom.fresh n).1 = List.replicate n g := by
  obtain ⟨m, rfl⟩ : ∃ m, n = m + 1 := ⟨n - 1, by omega⟩
  simp [geomAccessRun, geomAccess, LazyGeom.fresh, geomAccessRun_built, List.replicate]

/-- Witness for C6 at `n = 3` accesses of a `Nat`-valued geometry. -/
theorem c6_build_once_witness :
    (geomAccessRun 42 (LazyGeom.fresh (G := Nat)) 3).2.buildCount = 1 ∧
    (geomAccessRun 42 (LazyGeom.fresh (G := Nat)) 3).1 = List.replicate 3 42 :=
  c6_build_once 42 3 (by decide)

/-! ## C10 — error atomicity of the registry cache -/

/-- C10: whenever `ComponentRegistry.get` raises, the cache mapping and its
LRU order are exactly as before the call, the sources and capacity are
untouched, the hit counter is unchanged and the miss counter increments by
one. -/
theorem c10_error_atomicity (r : Registry) (fullName : String) (useCache : Bool)
    (params : List (String × PyVal)) (e : RegError)
    (h : (r.get fullName useCache params).1 = .error e) :
    (r.get fullName useCache params).2.cache = r.cache ∧
    (r.get fullName useCache params).2.sources = r.sources ∧
    (r.get fullName useCache params).2.cacheMaxSize = r.cacheMaxSize ∧
    (r.get fullName useCache params).2.cacheHits = r.cacheHits ∧
    (r.get fullName useCache params).2.cacheMisses = r.cacheMisses + 1 := by
  cases useCache with
  | false =>
    cases hg : get_uncached r.sources fullName params with
    | ok c => simp [Registry.get, hg] at h
    | error e0 => simp [Registry.get, hg]
  | true =>
    cases hl : List.lookup (make_cache_key fullName params) r.cache with
    | some c => simp [Registry.get, hl] at h
    | none =>
      cases hg : get_uncached r.sources fullName params with
      | ok c => simp [Registry.get, hl, hg] at h
      | error e0 => simp [Registry.get, hl, hg]

/-- Witness for C10: a registry with no sources raises a not-found error and
its state changes only by the miss counter. -/
theorem c10_error_atomicity_witness :
    ((Registry.get ⟨[], [], 128, 0, 0⟩ "x" true []).2.cache = [] ∧
     (Registry.get ⟨[], [], 128, 0, 0⟩ "x" true []).2.sources = [] ∧
     (Registry.get ⟨[], [], 128, 0, 0⟩ "x" true []).2.cacheMaxSize = 128 ∧
     (Registry.get ⟨[], [], 128, 0, 0⟩ "x" true []).2.cacheHits = 0 ∧
     (Registry.get ⟨[], [], 128, 0, 0⟩ "x" true []).2.cacheMisses = 0 + 1) :=
  c10_error_atomicity ⟨[], [], 128, 0, 0⟩ "x" true []
    (.keyError "Component not found: x") (by decide)

/-! ## C3 — cache hit/miss accounting -/

theorem get_counter_step (r : Registry) (n : String) (uc : Bool)
    (p : List (String × PyVal)) :
    (r.get n uc p).2.cacheHits + (r.get n uc p).2.cacheMisses
      = r.cacheHits + r.cacheMisses + 1 := by
  cases uc with
  | false =>
    cases hg : get_uncached r.sources n p with
    | ok c => simp [Registry.get, hg]; omega
    | error e0 => simp [Registry.get, hg]; omega
  | true =>
    cases hl : List.lookup (make_cache_key n p) r.cache with
    | some c => simp [Registry.get, hl]; omega
    | none =>
      cases hg : get_uncached r.sources n p with
      | ok c => simp [Registry.get, hl, hg]; omega
      | error e0 => simp [Registry.get, hl, hg]; omega

/-- Counterexample for C3 as stated: one single `get` call with
`use_cache = false` (zero calls with `use_cache = true`) already makes
`hits + misses = 1 ≠ 0`, because the code counts every non-hit call as a
miss. -/
theorem c3_counters_cex :
    ((Registry.get ⟨[⟨"mock", fun _ _ => .success 0⟩], [], 3, 0, 0⟩ "comp1" false []).2.cacheHits
      + (Registry.get ⟨[⟨"mock", fun _ _ => .success 0⟩], [], 3, 0, 0⟩ "comp1" false []).2.cacheMisses = 1) ∧
    ¬ ((Registry.get ⟨[⟨"mock", fun _ _ => .success 0⟩], [], 3, 0, 0⟩ "comp1" false []).2.cacheHits
      + (Registry.get ⟨[⟨"mock", fun _ _ => .success 0⟩], [], 3, 0, 0⟩ "comp1" false []).2.cacheMisses = 0) := by
  have h1 : (Registry.get ⟨[⟨"mock", fun _ _ => .success 0⟩], [], 3, 0, 0⟩ "comp1" false []).2.cacheHits
      + (Registry.get ⟨[⟨"mock", fun _ _ => .success 0⟩], [], 3, 0, 0⟩ "comp1" false []).2.cacheMisses = 1 := by
    decide
  exact ⟨h1, by omega⟩

/-- C3 (amended): `hits + misses` equals the total number of `get` calls —
every call that is not a cache hit (including `use_cache = false` calls and
calls that raise) increments `misses`, and cache hits increment `hits`. -/
theorem c3_counters_total_calls (r : Registry)
    (calls : List (String × Bool × List (String × PyVal))) :
    (runCalls r calls).cacheHits + (runCalls r calls).cacheMisses
      = r.cacheHits + r.cacheMisses + calls.length := by
  induction calls generalizing r with
  | nil => simp [runCalls]
  | cons c rest ih =>
    have hstep := get_counter_step r c.1 c.2.1 c.2.2
    have hrest := ih (r.get c.1 c.2.1 c.2.2).2
    simp only [runCalls, List.foldl_cons, List.length_cons] at hrest ⊢
    omega

/-! ## C8 — is_valid iff no error-severity issue -/

theorem not_any_error_iff (l : List Issue) :
    ((!(l.any (fun i => i.severity == Severity.error))) = true ↔
      ¬ ∃ i ∈ l, i.severity = Severity.error) := by
  simp [List.any_eq_true]

/-- C8: every `ValidationResult` produced by `validate_geometry` or by
`Component.validate` satisfies `is_valid = false` iff some issue has
severity ERROR. -/
theorem c8_is_valid_iff_no_error :
    (∀ (g : Workplane) (name : String) (maxd mind : Rat),
      ((validate_geometry g name maxd mind).is_valid = true ↔
        ¬ ∃ i ∈ (validate_geometry g name maxd mind).issues,
          i.severity = Severity.error)) ∧
    (∀ (name : String) (bo : Except String Workplane) (maxd mind : Option Rat),
      ((component_validate name bo maxd mind).is_valid = true ↔
        ¬ ∃ i ∈ (component_validate name bo maxd mind).issues,
          i.severity = Severity.error)) := by
  have hg : ∀ (g : Workplane) (name : String) (maxd mind : Rat),
      ((validate_geometry g name maxd mind).is_valid = true ↔
        ¬ ∃ i ∈ (validate_geometry g name maxd mind).issues,
          i.severity = Severity.error) := by
    intro g name maxd mind
    rcases g with ⟨probe⟩
    cases probe with
    | raises m => simp [validate_geometry]
    | empty => simp [validate_geometry]
    | shape s => exact not_any_error_iff _
  refine ⟨hg, ?_⟩
  intro name bo maxd mind
  cases bo with
  | ok g => exact hg g name _ _
  | error e => simp [component_validate]

/-! ## C1 / C2 — the short-name fallback loop -/

theorem snl_first_stop (name : String) (params : List (String × PyVal)) :
    ∀ (pre : List Source) (s : Source) (post : List Source) (acc : Option String),
    (∀ t ∈ pre, continues_after (t.getComponent name params) = true) →
    continues_after (s.getComponent name params) = false →
    short_name_loop name params (pre ++ s :: post) acc
      = raiseResult (s.getComponent name params) := by
  intro pre
  induction pre with
  | nil =>
    intro s post acc _ hs
    cases hsc : s.getComponent name params with
    | success c => simp [short_name_loop, hsc, raiseResult]
    | keyError m => rw [hsc] at hs; simp [continues_after] at hs
    | valueError m => rw [hsc] at hs; simp [continues_after] at hs
    | paramValidationError m => simp [short_name_loop, hsc, raiseResult]
  | cons t rest ih =>
    intro s post acc hpre hs
    have ht := hpre t (List.mem_cons_self t rest)
    cases htc : t.getComponent name params with
    | success c => rw [htc] at ht; simp [continues_after] at ht
    | paramValidationError m => rw [htc] at ht; simp [continues_after] at ht
    | keyError m =>
      simp only [List.cons_append, short_name_loop, htc]
      exact ih s post acc (fun u hu => hpre u (List.mem_cons_of_mem t hu)) hs
    | valueError m =>
      simp only [List.cons_append, short_name_loop, htc]
      exact ih s post (some m) (fun u hu => hpre u (List.mem_cons_of_mem t hu)) hs

theorem snl_all_key (name : String) (params : List (String × PyVal)) :
    ∀ (sources : List Source) (acc : Option String),
    (∀ s ∈ sources, ∃ m, s.getComponent name params = .keyError m) →
    short_name_loop name params sources acc =
      (match acc with
       | some m => .error (.valueError m)
       | none => .error (.keyError ("Component not found: " ++ name))) := by
  intro sources
  induction sources with
  | nil => intro acc _; rfl
  | cons s rest ih =>
    intro acc h
    obtain ⟨m, hm⟩ := h s (List.mem_cons_self s rest)
    simp only [short_name_loop, hm]
    exact ih acc (fun u hu => h u (List.mem_cons_of_mem s hu))

theorem snl_value_result (name : String) (params : List (String × PyVal)) :
    ∀ (sources : List Source) (acc : Option String),
    (∀ s ∈ sources, continues_after (s.getComponent name params) = true) →
    ((∃ m0, acc = some m0) ∨ ∃ s ∈ sources, ∃ m, s.getComponent name params = .valueError m) →
    ∃ m, short_name_loop name params sources acc = .error (.valueError m) ∧
      (acc = some m ∨ ∃ s ∈ sources, s.getComponent name params = .valueError m) := by
  intro sources
  induction sources with
  | nil =>
    intro acc _ hd
    rcases hd with ⟨m0, rfl⟩ | ⟨s, hs, _⟩
    · exact ⟨m0, rfl, Or.inl rfl⟩
    · cases hs
  | cons s rest ih =>
    intro acc hcont hd
    have hs := hcont s (List.mem_cons_self s rest)
    cases hsc : s.getComponent name params with
    | success c => rw [hsc] at hs; simp [continues_after] at hs
    | paramValidationError m => rw [hsc] at hs; simp [continues_after] at hs
    | keyError m0 =>
      have hd' : (∃ m0, acc = some m0) ∨
          ∃ u ∈ rest, ∃ m, u.getComponent name params = .valueError m := by
        rcases hd with h | ⟨u, hu, m, hm⟩
        · exact Or.inl h
        · rcases List.mem_cons.mp hu with rfl | hu0
          · rw [hsc] at hm; exact SourceResult.noConfusion hm
          · exact Or.inr ⟨u, hu0, m, hm⟩
      obtain ⟨m, hloop, hor⟩ :=
        ih acc (fun u hu => hcont u (List.mem_cons_of_mem s hu)) hd'
      refine ⟨m, ?_, ?_⟩
      · simp only [short_name_loop, hsc]; exact hloop
      · rcases hor with h | ⟨u, hu, hm⟩
        · exact Or.inl h
        · exact Or.inr ⟨u, List.mem_cons_of_mem s hu, hm⟩
    | valueError m0 =>
      obtain ⟨m, hloop, hor⟩ :=
        ih (some m0) (fun u hu => hcont u (List.mem_cons_of_mem s hu)) (Or.inl ⟨m0, rfl⟩)
      refine ⟨m, ?_, ?_⟩
      · simp only [short_name_loop, hsc]; exact hloop
      · rcases hor with h | ⟨u, hu, hm⟩
        · refine Or.inr ⟨s, List.mem_cons_self s rest, ?_⟩
          rw [hsc, Option.some.inj h]
        · exact Or.inr ⟨u, List.mem_cons_of_mem s hu, hm⟩

/-- Counterexample for C1 as stated: with two registered sources, the first
raising a `ParameterValidationError` and the second able to return a
component, the short-name search is aborted by the first source's error and
the second source is never reached. -/
theorem c1_validation_error_aborts_cex :
    get_uncached [⟨"A", fun _ _ => .paramValidationError "bad params"⟩,
                  ⟨"B", fun _ _ => .success 7⟩] "bolt" []
      = .error (.paramValidationError "bad params") ∧
    ¬ (get_uncached [⟨"A", fun _ _ => .paramValidationError "bad params"⟩,
                  ⟨"B", fun _ _ => .success 7⟩] "bolt" [] = .ok 7) :=
  ⟨by decide, by decide⟩

/-- C1 (amended): during short-name resolution, a `KeyError` or a plain
`ValueError` (e.g. missing required parameters) from an earlier source does
not abort the search — every remaining source is still attempted in
registration order and the first success is returned; a
`ParameterValidationError`, however, propagates immediately and aborts the
search. -/
theorem c1_param_error_search_behavior :
    (∀ (pre : List Source) (s : Source) (post : List Source) (name : String)
       (params : List (String × PyVal)) (c : Nat),
      ¬ 3 ≤ (splitSlash name).length →
      (∀ t ∈ pre, continues_after (t.getComponent name params) = true) →
      s.getComponent name params = .success c →
      get_uncached (pre ++ s :: post) name params = .ok c) ∧
    (∀ (pre : List Source) (s : Source) (post : List Source) (name : String)
       (params : List (String × PyVal)) (m : String),
      ¬ 3 ≤ (splitSlash name).length →
      (∀ t ∈ pre, continues_after (t.getComponent name params) = true) →
      s.getComponent name params = .paramValidationError m →
      get_uncached (pre ++ s :: post) name params = .error (.paramValidationError m)) := by
  constructor
  · intro pre s post name params c h3 hpre hs
    have h := snl_first_stop name params pre s post none hpre (by rw [hs]; rfl)
    rw [hs] at h
    simp only [get_uncached]
    rw [if_neg h3]
    exact h
  · intro pre s post name params m h3 hpre hs
    have h := snl_first_stop name params pre s post none hpre (by rw [hs]; rfl)
    rw [hs] at h
    simp only [get_uncached]
    rw [if_neg h3]
    exact h

/-- Witness for C1 (amended): a missing-required-parameters `ValueError` from
source A does not prevent source B's component from being returned. -/
theorem c1_param_error_search_witness :
    get_uncached ([⟨"A", fun _ _ => .valueError "Missing required parameters for bolt"⟩]
        ++ ⟨"B", fun _ _ => .success 7⟩ :: []) "bolt" [] = .ok 7 :=
  c1_param_error_search_behavior.1
    [⟨"A", fun _ _ => .valueError "Missing required parameters for bolt"⟩]
    ⟨"B", fun _ _ => .success 7⟩ [] "bolt" [] 7 (by decide) (by decide) rfl

/-- C2: if the short-name loop exhausts every registered source without a
success (each source keeps the search going with a `KeyError` or a plain
`ValueError`), then: (1) if at least one source raised a `ValueError`, `get`
raises a remembered `ValueError` that some source actually raised; (2) a
generic not-found `KeyError` naming the original short name is raised only
when every source raised `KeyError`; and (3) in the concrete two-source
scenario — name absent from A, present-but-missing-required-params in B —
`registry.get` raises B's missing-required-parameter error. -/
theorem c2_fallback_error_precedence :
    (∀ (sources : List Source) (name : String) (params : List (String × PyVal)),
      ¬ 3 ≤ (splitSlash name).length →
      (∀ s ∈ sources, continues_after (s.getComponent name params) = true) →
      (∃ s ∈ sources, ∃ m, s.getComponent name params = .valueError m) →
      ∃ m, get_uncached sources name params = .error (.valueError m) ∧
        ∃ s ∈ sources, s.getComponent name params = .valueError m) ∧
    (∀ (sources : List Source) (name : String) (params : List (String × PyVal)),
      ¬ 3 ≤ (splitSlash name).length →
      (∀ s ∈ sources, ∃ m, s.getComponent name params = .keyError m) →
      get_uncached sources name params
        = .error (.keyError ("Component not found: " ++ name))) ∧
    ((Registry.get ⟨[⟨"A", fun n _ => .keyError ("Component not found in A: " ++ n)⟩,
        ⟨"B", fun _ _ =>
          .valueError "Missing required parameters for bolt: [\x27length\x27]"⟩],
        [], 128, 0, 0⟩ "bolt" true []).1
      = .error (.valueError "Missing required parameters for bolt: [\x27length\x27]")) := by
  refine ⟨?_, ?_, by decide⟩
  · intro sources name params h3 hcont hex
    obtain ⟨m, hloop, hor⟩ := snl_value_result name params sources none hcont (Or.inr hex)
    refine ⟨m, ?_, ?_⟩
    · simp only [get_uncached]
      rw [if_neg h3]
      exact hloop
    · rcases hor with h | h
      · exact Option.noConfusion h
      · exact h
  · intro sources name params h3 hkeys
    have h := snl_all_key name params sources none hkeys
    simp only [get_uncached]
    rw [if_neg h3]
    exact h

/-- Witness for C2: the first part applied to the concrete two-source
scenario (A raises `KeyError`, B raises a missing-required `ValueError`). -/
theorem c2_fallback_error_precedence_witness :
    ∃ m, get_uncached [⟨"A", fun _ _ => .keyError "not in A"⟩,
        ⟨"B", fun _ _ => .valueError "missing length"⟩] "bolt" []
      = .error (.valueError m) ∧
      ∃ s ∈ [(⟨"A", fun _ _ => .keyError "not in A"⟩ : Source),
             ⟨"B", fun _ _ => .valueError "missing length"⟩],
        s.getComponent "bolt" [] = .valueError m :=
  c2_fallback_error_precedence.1
    [⟨"A", fun _ _ => .keyError "not in A"⟩, ⟨"B", fun _ _ => .valueError "missing length"⟩]
    "bolt" [] (by decide) (by decide)
    ⟨⟨"B", fun _ _ => .valueError "missing length"⟩,
      List.mem_cons_of_mem _ (List.mem_cons_self _ _), "missing length", rfl⟩

/-! ## C7 — parameter validation aggregation -/

theorem vp_range_max_shape (ps : ParamSchema) (acc : List String × List (String × PyVal))
    (p : String × PyVal) :
    (∃ m, vp_range_max ps acc p = (acc.1 ++ [m], acc.2)) ∨
    vp_range_max ps acc p = (acc.1, acc.2 ++ [p]) := by
  rcases hn : p.2.numericValue with _ | v
  · exact Or.inr (by simp [vp_range_max, hn])
  · rcases hm : ps.max? with _ | m
    · exact Or.inr (by simp [vp_range_max, hn, hm])
    · by_cases hv : m < v
      · exact Or.inl ⟨max_error_msg p.1 m v, by simp [vp_range_max, hn, hm, hv]⟩
      · exact Or.inr (by simp [vp_range_max, hn, hm, hv])

theorem vp_range_shape (ps : ParamSchema) (acc : List String × List (String × PyVal))
    (p : String × PyVal) :
    (∃ m, vp_range ps acc p = (acc.1 ++ [m], acc.2)) ∨
    vp_range ps acc p = (acc.1, acc.2 ++ [p]) := by
  rcases hn : p.2.numericValue with _ | v
  · exact Or.inr (by simp [vp_range, hn])
  · rcases hm : ps.min? with _ | m
    · have heq : vp_range ps acc p = vp_range_max ps acc p := by simp [vp_range, hn, hm]
      rw [heq]
      exact vp_range_max_shape ps acc p
    · by_cases hv : v < m
      · exact Or.inl ⟨min_error_msg p.1 m v, by simp [vp_range, hn, hm, hv]⟩
      · have heq : vp_range ps acc p = vp_range_max ps acc p := by
          simp [vp_range, hn, hm, hv]
        rw [heq]
        exact vp_range_max_shape ps acc p

theorem vp_step_shape (schema : List (String × ParamSchema)) (known : List String)
    (acc : List String × List (String × PyVal)) (p : String × PyVal) :
    (known.contains p.1 = false ∧ vp_step schema known acc p = acc) ∨
    (known.contains p.1 = true ∧
      ((∃ m, vp_step schema known acc p = (acc.1 ++ [m], acc.2)) ∨
       vp_step schema known acc p = (acc.1, acc.2 ++ [p]))) := by
  cases hk : known.contains p.1 with
  | false => exact Or.inl ⟨rfl, by simp only [vp_step, hk]⟩
  | true =>
    refine Or.inr ⟨rfl, ?_⟩
    rcases ht : ((List.lookup p.1 schema).getD {}).type? with _ | t
    · have heq : vp_step schema known acc p
          = vp_range ((List.lookup p.1 schema).getD {}) acc p := by
        simp only [vp_step, hk, ht]
      rw [heq]
      exact vp_range_shape _ acc p
    · by_cases hi : p.2.isInstance t = true
      · have heq : vp_step schema known acc p
            = vp_range ((List.lookup p.1 schema).getD {}) acc p := by
          simp only [vp_step, hk, ht]
          rw [if_pos hi]
        rw [heq]
        exact vp_range_shape _ acc p
      · refine Or.inl ⟨type_error_msg p.1 t p.2, ?_⟩
        simp only [vp_step, hk, ht]
        rw [if_neg hi]

theorem vp_fold_mono (schema : List (String × ParamSchema)) (known : List String) :
    ∀ (ps : List (String × PyVal)) (acc : List String × List (String × PyVal)),
    ∃ l, (List.foldl (vp_step schema known) acc ps).1 = acc.1 ++ l := by
  intro ps
  induction ps with
  | nil => intro acc; exact ⟨[], by simp⟩
  | cons p rest ih =>
    intro acc
    obtain ⟨l, hl⟩ := ih (vp_step schema known acc p)
    rcases vp_step_shape schema known acc p with ⟨_, heq⟩ | ⟨_, ⟨m, heq⟩ | heq⟩
    · exact ⟨l, by rw [List.foldl_cons, hl, heq]⟩
    · refine ⟨m :: l, ?_⟩
      rw [List.foldl_cons, hl, heq]
      simp
    · exact ⟨l, by rw [List.foldl_cons, hl, heq]⟩

theorem vp_fold_ok_char (schema : List (String × ParamSchema)) (known : List String) :
    ∀ (ps : List (String × PyVal)) (acc : List String × List (String × PyVal)),
    (List.foldl (vp_step schema known) acc ps).1 = [] →
    acc.1 = [] ∧
    (List.foldl (vp_step schema known) acc ps).2
      = acc.2 ++ ps.filter (fun p => known.contains p.1) := by
  intro ps
  induction ps with
  | nil => intro acc h; exact ⟨h, by simp⟩
  | cons p rest ih =>
    intro acc h
    rw [List.foldl_cons] at h
    rcases vp_step_shape schema known acc p with ⟨hk, heq⟩ | ⟨hk, ⟨m, heq⟩ | heq⟩
    · rw [heq] at h
      obtain ⟨h1, h2⟩ := ih acc h
      refine ⟨h1, ?_⟩
      rw [List.foldl_cons, heq, h2]
      simp only [List.filter_cons]
      rw [hk]
      simp
    · rw [heq] at h
      obtain ⟨l, hl⟩ := vp_fold_mono schema known rest (acc.1 ++ [m], acc.2)
      rw [h] at hl
      simp at hl
    · rw [heq] at h
      obtain ⟨h1, h2⟩ := ih (acc.1, acc.2 ++ [p]) h
      refine ⟨h1, ?_⟩
      rw [List.foldl_cons, heq, h2]
      simp only [List.filter_cons]
      rw [hk]
      simp

theorem vp_final_if (res : List String × List (String × PyVal))
    (v : List (String × PyVal))
    (h : (if res.1.isEmpty then
            (Except.ok res.2 : Except (List String) (List (String × PyVal)))
          else Except.error res.1) = .ok v) :
    res.1 = [] ∧ res.2 = v := by
  by_cases hc : res.1.isEmpty = true
  · rw [if_pos hc] at h
    exact ⟨List.isEmpty_iff.mp hc, Except.ok.inj h⟩
  · rw [if_neg hc] at h
    exact Except.noConfusion h

theorem validate_params_ok_filter (name : String) (params : List (String × PyVal))
    (strict : Bool) (v : List (String × PyVal))
    (h : validate_params name params strict = .ok v) :
    v = params.filter
      (fun p => (((List.lookup name PARAM_SCHEMAS).getD []).map Prod.fst).contains p.1) := by
  simp only [validate_params] at h
  obtain ⟨h1, h2⟩ := vp_final_if _ v h
  obtain ⟨_, hb⟩ := vp_fold_ok_char _ _ params _ h1
  rw [← h2, hb]
  simp

/-- C7: with two simultaneous problems (one out-of-range value, one unknown
key, strict mode) the validator raises a single aggregated failure whose
problem list enumerates both, in the code's order; and whenever no problem
is found, it returns the provided parameters filtered down to the schema's
known keys, unknown keys removed. -/
theorem c7_validation_aggregation :
    (validate_params "PinHeader" [("rows", .vint 0), ("bogus", .vint 1)] true
      = .error
        ["Unknown parameter(s) for PinHeader: [\x27bogus\x27]. Valid parameters: [\x27above\x27, \x27below\x27, \x27columns\x27, \x27rows\x27, \x27simple\x27]",
         "Parameter \x27rows\x27 must be >= 1, got 0"]) ∧
    (∀ (name : String) (params : List (String × PyVal)) (strict : Bool)
       (v : List (String × PyVal)),
      validate_params name params strict = .ok v →
      v = params.filter
        (fun p => (((List.lookup name PARAM_SCHEMAS).getD []).map Prod.fst).contains p.1)) := by
  exact ⟨by decide, validate_params_ok_filter⟩

/-- Witness for C7: a validated parameter set equals the known-key filter of
the provided parameters. -/
theorem c7_validation_aggregation_witness :
    ([("rows", PyVal.vint 2)] : List (String × PyVal)) =
      ([("rows", PyVal.vint 2)] : List (String × PyVal)).filter
        (fun p =>
          (((List.lookup "PinHeader" PARAM_SCHEMAS).getD []).map Prod.fst).contains p.1) :=
  c7_validation_aggregation.2 "PinHeader" [("rows", .vint 2)] true
    [("rows", .vint 2)] (by decide)

/-! ## C9 — defaults merged with validated parameters -/

theorem dictSet_of_any_false {α : Type} (d : List (String × α)) (k : String) (v : α)
    (h : d.any (fun p => p.1 == k) = false) : dictSet d k v = d ++ [(k, v)] := by
  unfold dictSet
  rw [h, if_neg Bool.false_ne_true]

theorem dictSet_of_any_true {α : Type} (d : List (String × α)) (k : String) (v : α)
    (h : d.any (fun p => p.1 == k) = true) :
    dictSet d k v = d.map (fun p => if p.1 == k then (k, v) else p) := by
  unfold dictSet
  rw [h, if_pos rfl]

theorem any_beq_false_lookup_none {α : Type} (d : List (String × α)) (k : String)
    (h : d.any (fun p => p.1 == k) = false) : List.lookup k d = none := by
  induction d with
  | nil => rfl
  | cons p rest ih =>
    rcases p with ⟨a, b⟩
    simp only [List.any_cons, Bool.or_eq_false_iff] at h
    have h1 : (k == a) = false := by
      have := h.1
      simp only [beq_eq_false_iff_ne] at this ⊢
      exact fun he => this he.symm
    rw [List.lookup_cons, h1]
    exact ih h.2

theorem lookup_map_replace_ne {α : Type} (k : String) (v : α) (k' : String) (h : k' ≠ k) :
    ∀ (d : List (String × α)),
    List.lookup k' (d.map (fun p => if p.1 == k then (k, v) else p)) = List.lookup k' d := by
  intro d
  induction d with
  | nil => rfl
  | cons p rest ih =>
    rcases p with ⟨a, b⟩
    rcases hak : a == k with _ | _
    · simp only [List.map_cons]
      rw [hak, if_neg Bool.false_ne_true, List.lookup_cons, List.lookup_cons]
      cases hka : k' == a
      · exact ih
      · rfl
    · have hk : a = k := by simpa using hak
      subst hk
      simp only [List.map_cons]
      rw [hak, if_pos rfl, List.lookup_cons, List.lookup_cons, beq_false_of_ne h]
      exact ih

theorem lookup_map_replace_self {α : Type} (k : String) (v : α) :
    ∀ (d : List (String × α)), d.any (fun p => p.1 == k) = true →
    List.lookup k (d.map (fun p => if p.1 == k then (k, v) else p)) = some v := by
  intro d
  induction d with
  | nil => intro h; simp at h
  | cons p rest ih =>
    intro h
    rcases p with ⟨a, b⟩
    rcases hak : a == k with _ | _
    · have hka : (k == a) = false := by
        simp only [beq_eq_false_iff_ne] at hak ⊢
        exact fun he => hak he.symm
      simp only [List.any_cons, hak, Bool.false_or] at h
      simp only [List.map_cons]
      rw [hak, if_neg Bool.false_ne_true, List.lookup_cons, hka]
      exact ih h
    · simp only [List.map_cons]
      rw [hak, if_pos rfl]
      exact List.lookup_cons_self

theorem lookup_dictSet {α : Type} (d : List (String × α)) (k : String) (v : α)
    (k' : String) :
    List.lookup k' (dictSet d k v) = if k' = k then some v else List.lookup k' d := by
  rcases hany : d.any (fun p => p.1 == k) with _ | _
  · rw [dictSet_of_any_false d k v hany]
    by_cases hk : k' = k
    · subst hk
      rw [if_pos rfl, lookup_append_chain, any_beq_false_lookup_none d k' hany]
      simp
    · rw [if_neg hk, lookup_append_chain]
      have hone : List.lookup k' [(k, v)] = none := by
        rw [List.lookup_cons, beq_false_of_ne hk]
        rfl
      cases hl : List.lookup k' d <;> simp [hone]
  · rw [dictSet_of_any_true d k v hany]
    by_cases hk : k' = k
    · subst hk
      rw [if_pos rfl]
      exact lookup_map_replace_self k' v d hany
    · rw [if_neg hk]
      exact lookup_map_replace_ne k v k' hk d

theorem lookup_mergeDicts {α : Type} :
    ∀ (b a : List (String × α)), (b.map Prod.fst).Nodup → ∀ (k : String),
    List.lookup k (mergeDicts a b) = (List.lookup k b).or (List.lookup k a) := by
  intro b
  induction b with
  | nil => intro a _ k; rfl
  | cons p rest ih =>
    intro a hnd k
    rcases p with ⟨kb, vb⟩
    have hstep : mergeDicts a ((kb, vb) :: rest) = mergeDicts (dictSet a kb vb) rest := rfl
    rw [hstep]
    simp only [List.map_cons, List.nodup_cons] at hnd
    rw [ih (dictSet a kb vb) hnd.2 k]
    by_cases hk : k = kb
    · subst hk
      rw [lookup_eq_none_of_not_mem_keys rest k hnd.1, lookup_dictSet, if_pos rfl]
      simp [List.lookup_cons]
    · rw [lookup_dictSet, if_neg hk, List.lookup_cons, beq_false_of_ne hk]

/-- C9: for every successful electronics-source `get_component` call, the
constructed component's final parameters are the declared defaults
overridden by the validated provided parameters (provided values always
win); in particular, requesting `PinHeader` with `rows = 2` yields final
parameters containing `rows = 2` and `columns = 1`. -/
theorem c9_defaults_merge :
    (∀ (available : List (String × CatalogEntry)) (version : Option String)
       (name : String) (strict : Bool) (params : List (String × PyVal))
       (entry : CatalogEntry) (validated : List (String × PyVal))
       (comp : ElecComponentData),
      (params.map Prod.fst).Nodup →
      List.lookup name available = some entry →
      validate_params name params strict = .ok validated →
      elec_get_component available version name strict params = .ok comp →
      ∀ (k : String), List.lookup k comp.params =
        (List.lookup k validated).or (List.lookup k entry.defaults)) ∧
    (∃ comp, elec_get_component ELEC_CATALOG (some "0.2.0") "PinHeader" true
        [("rows", .vint 2)] = .ok comp ∧
      List.lookup "rows" comp.params = some (.vint 2) ∧
      List.lookup "columns" comp.params = some (.vint 1)) := by
  constructor
  · intro available version name strict params entry validated comp hnd hlook hvp hget k
    have hndv : (validated.map Prod.fst).Nodup := by
      rw [validate_params_ok_filter name params strict validated hvp]
      exact List.Nodup.sublist ((List.filter_sublist params).map Prod.fst) hnd
    simp only [elec_get_component, hlook, hvp] at hget
    split at hget
    · exact Except.noConfusion hget
    · injection hget with hcomp
      rw [← hcomp]
      show List.lookup k (mergeDicts entry.defaults validated) = _
      exact lookup_mergeDicts validated entry.defaults hndv k
  · refine ⟨⟨"PinHeader_rows=2", "connector", "Through-hole pin header",
      [("rows", .vint 2), ("columns", .vint 1), ("above", .vint 7),
       ("below", .vint 3), ("simple", .vbool true)]⟩, by decide, by decide, by decide⟩

/-- Witness for C9: the merge characterization applied to the `PinHeader`
round-trip scenario at key `columns` (absent from the request, so the
default wins). -/
theorem c9_defaults_merge_witness :
    List.lookup "columns"
        (ElecComponentData.params ⟨"PinHeader_rows=2", "connector",
          "Through-hole pin header",
          [("rows", PyVal.vint 2), ("columns", PyVal.vint 1), ("above", PyVal.vint 7),
           ("below", PyVal.vint 3), ("simple", PyVal.vbool true)]⟩) =
      (List.lookup "columns" [("rows", PyVal.vint 2)]).or
        (List.lookup "columns" (CatalogEntry.defaults ⟨"connector",
          "Through-hole pin header", [],
          [("rows", PyVal.vint 1), ("columns", PyVal.vint 1), ("above", PyVal.vint 7),
           ("below", PyVal.vint 3), ("simple", PyVal.vbool true)]⟩)) :=
  c9_defaults_merge.1 ELEC_CATALOG (some "0.2.0") "PinHeader" true
    [("rows", PyVal.vint 2)]
    ⟨"connector", "Through-hole pin header", [],
      [("rows", PyVal.vint 1), ("columns", PyVal.vint 1), ("above", PyVal.vint 7),
       ("below", PyVal.vint 3), ("simple", PyVal.vbool true)]⟩
    [("rows", PyVal.vint 2)]
    ⟨"PinHeader_rows=2", "connector", "Through-hole pin header",
      [("rows", PyVal.vint 2), ("columns", PyVal.vint 1), ("above", PyVal.vint 7),
       ("below", PyVal.vint 3), ("simple", PyVal.vbool true)]⟩
    (by decide) (by decide) (by decide) (by decide) "columns"

/-! ## C5 — assembly preservation -/

theorem find_child_color_cons (d : CqChild) (rest : List CqChild) (n : String) :
    find_child_color (d :: rest) n
      = if d.name == n then d.color else find_child_color rest n := by
  unfold find_child_color
  rcases h : d.name == n with _ | _
  · rw [List.find?_cons_of_neg _ (by rw [h]; exact Bool.false_ne_true),
      if_neg Bool.false_ne_true]
  · rw [List.find?_cons_of_pos _ (by rw [h]), if_pos rfl]

theorem find_child_color_not_mem (cs : List CqChild) (n : String)
    (h : n ∉ cs.map CqChild.name) : find_child_color cs n = none := by
  induction cs with
  | nil => rfl
  | cons d rest ih =>
    simp only [List.map_cons, List.mem_cons] at h
    push_neg at h
    rw [find_child_color_cons]
    have hne : (d.name == n) = false := by
      simp only [beq_eq_false_iff_ne]
      exact fun he => h.1 he.symm
    rw [hne, if_neg Bool.false_ne_true]
    exact ih h.2

theorem find_child_color_mem :
    ∀ (cs : List CqChild), (cs.map CqChild.name).Nodup →
    ∀ c ∈ cs, find_child_color cs c.name = c.color := by
  intro cs
  induction cs with
  | nil => intro _ c hc; cases hc
  | cons d rest ih =>
    intro hnd c hc
    simp only [List.map_cons, List.nodup_cons] at hnd
    rcases List.mem_cons.mp hc with rfl | hc'
    · rw [find_child_color_cons, if_pos (beq_self_eq_true c.name)]
    · have hne : (d.name == c.name) = false := by
        simp only [beq_eq_false_iff_ne]
        intro he
        exact hnd.1 (he ▸ List.mem_map_of_mem CqChild.name hc')
      rw [find_child_color_cons, hne, if_neg Bool.false_ne_true]
      exact ih hnd.2 c hc'

theorem from_assembly_parts (a : CqAssembly)
    (hnd : (a.children.map CqChild.name).Nodup)
    (hroot : a.name ∉ a.children.map CqChild.name) :
    (AssemblyInfo.from_assembly a).parts
      = a.children.map (fun c => (⟨c.name, c.color⟩ : PartInfo)) ++ [⟨a.name, none⟩] := by
  have hchildren :
      (a.children.map CqChild.name).map
          (fun n => (⟨n, find_child_color a.children n⟩ : PartInfo))
        = a.children.map (fun c => (⟨c.name, c.color⟩ : PartInfo)) := by
    rw [List.map_map]
    apply List.map_congr_left
    intro c hc
    simp only [Function.comp]
    rw [find_child_color_mem a.children hnd c hc]
  have hroottl :
      ([a.name].map (fun n => (⟨n, find_child_color a.children n⟩ : PartInfo)))
        = [(⟨a.name, none⟩ : PartInfo)] := by
    simp [find_child_color_not_mem a.children a.name hroot]
  unfold AssemblyInfo.from_assembly CqAssembly.traverseNames
  rw [List.map_append, hchildren, hroottl]

theorem fold_color_map :
    ∀ (cs : List CqChild) (acc : List (String × RGBA)),
    (cs.map CqChild.name).Nodup →
    (∀ c ∈ cs, acc.any (fun p => p.1 == c.name) = false) →
    ((cs.map (fun c => (⟨c.name, c.color⟩ : PartInfo))).foldl
        (fun d p => match p.color with | some col => dictSet d p.name col | none => d) acc)
      = acc ++ cs.filterMap (fun c => c.color.map (fun col => (c.name, col))) := by
  intro cs
  induction cs with
  | nil => intro acc _ _; simp
  | cons c rest ih =>
    intro acc hnd hfresh
    rcases c with ⟨cn, ccol⟩
    simp only [List.map_cons, List.nodup_cons] at hnd
    have hfr := hfresh ⟨cn, ccol⟩ (List.mem_cons_self _ _)
    rcases ccol with _ | col
    · simp only [List.map_cons, List.foldl_cons, List.filterMap_cons]
      exact ih acc hnd.2 (fun d hd => hfresh d (List.mem_cons_of_mem _ hd))
    · have hfresh2 : ∀ d ∈ rest, ((acc ++ [(cn, col)]).any (fun p => p.1 == d.name)) = false := by
        intro d hd
        have h1 := hfresh d (List.mem_cons_of_mem _ hd)
        have h2 : (cn == d.name) = false := by
          simp only [beq_eq_false_iff_ne]
          intro he
          exact hnd.1 (he ▸ List.mem_map_of_mem CqChild.name hd)
        simp [List.any_append, h1, h2]
      simp only [List.map_cons, List.foldl_cons, List.filterMap_cons]
      rw [dictSet_of_any_false acc cn col hfr, ih (acc ++ [(cn, col)]) hnd.2 hfresh2]
      simp

/-- Counterexample for C5 as stated: for the assembly with parts
`["pcb", "chip"]` (root named "asm0"), `list_parts()` after a geometry
access is `["pcb", "chip", "asm0"]` — the traverse order includes the
enclosing assembly itself — and not `["pcb", "chip"]`. -/
theorem c5_list_parts_cex :
    ElecCompState.list_parts
        (ElecCompState.geometry_access
          { cq_object := CqObject.assembly
              ⟨"asm0", [⟨"pcb", some (0, 1, 0, 1)⟩, ⟨"chip", none⟩]⟩ }).2
      = ["pcb", "chip", "asm0"] ∧
    ¬ ElecCompState.list_parts
        (ElecCompState.geometry_access
          { cq_object := CqObject.assembly
              ⟨"asm0", [⟨"pcb", some (0, 1, 0, 1)⟩, ⟨"chip", none⟩]⟩ }).2
      = ["pcb", "chip"] :=
  ⟨by decide, by decide⟩

/-- C5 (amended): for every assembly-backed electronics component whose
child part names are distinct and whose root name is not a child name,
after the geometry accessor has been invoked once `list_parts()` returns
the children's names in original order **followed by the enclosing
assembly's own name** (the traverse order), and `get_color_map()` returns
exactly the mapping from each coloured child to its RGBA tuple, colourless
parts (including the root) excluded. -/
theorem c5_assembly_preservation (a : CqAssembly)
    (hnd : (a.children.map CqChild.name).Nodup)
    (hroot : a.name ∉ a.children.map CqChild.name) :
    (ElecCompState.list_parts
        (ElecCompState.geometry_access { cq_object := CqObject.assembly a }).2
      = a.children.map CqChild.name ++ [a.name]) ∧
    (ElecCompState.get_color_map
        (ElecCompState.geometry_access { cq_object := CqObject.assembly a }).2
      = a.children.filterMap (fun c => c.color.map (fun col => (c.name, col)))) := by
  constructor
  · show AssemblyInfo.part_names (AssemblyInfo.from_assembly a) = _
    unfold AssemblyInfo.part_names
    rw [from_assembly_parts a hnd hroot]
    simp
  · show AssemblyInfo.get_color_map (AssemblyInfo.from_assembly a) = _
    unfold AssemblyInfo.get_color_map
    rw [from_assembly_parts a hnd hroot, List.foldl_append,
      fold_color_map a.children [] hnd (fun c hc => rfl)]
    simp

/-- Witness for C5 (amended) at the concrete pcb/chip assembly. -/
theorem c5_assembly_preservation_witness :
    (ElecCompState.list_parts
        (ElecCompState.geometry_access
          { cq_object := CqObject.assembly
              ⟨"asm0", [⟨"pcb", some (0, 1, 0, 1)⟩, ⟨"chip", none⟩]⟩ }).2
      = ([⟨"pcb", some (0, 1, 0, 1)⟩, ⟨"chip", none⟩] : List CqChild).map CqChild.name
          ++ ["asm0"]) ∧
    (ElecCompState.get_color_map
        (ElecCompState.geometry_access
          { cq_object := CqObject.assembly
              ⟨"asm0", [⟨"pcb", some (0, 1, 0, 1)⟩, ⟨"chip", none⟩]⟩ }).2
      = ([⟨"pcb", some (0, 1, 0, 1)⟩, ⟨"chip", none⟩] : List CqChild).filterMap
          (fun c => c.color.map (fun col => (c.name, col)))) :=
  c5_assembly_preservation ⟨"asm0", [⟨"pcb", some (0, 1, 0, 1)⟩, ⟨"chip", none⟩]⟩
    (by decide) (by decide)

/-! ## C4 — LRU eviction -/

theorem make_cache_key_nil (n : String) : make_cache_key n [] = n := rfl

theorem evict_oldest_of_le {α : Type} (d : List (String × α)) (m : Nat)
    (h : d.length ≤ m) : evict_oldest d m = d := by
  unfold evict_oldest
  rw [Nat.sub_eq_zero_of_le h, List.drop_zero]

theorem runGets_cons (r : Registry) (n : String) (rest : List String) :
    runGets r (n :: rest) = runGets (r.get n true []).2 rest := rfl

theorem runGets_append (r : Registry) (l1 l2 : List String) :
    runGets r (l1 ++ l2) = runGets (runGets r l1) l2 := by
  unfold runGets
  rw [List.foldl_append]

theorem get_fresh_insert (r : Registry) (n : String) (c : Nat)
    (hl : List.lookup n r.cache = none)
    (hg : get_uncached r.sources n [] = .ok c) :
    (r.get n true []).1 = .ok c ∧
    (r.get n true []).2.cache = evict_oldest (r.cache ++ [(n, c)]) r.cacheMaxSize ∧
    (r.get n true []).2.sources = r.sources ∧
    (r.get n true []).2.cacheMaxSize = r.cacheMaxSize := by
  have hsm : set_move_to_end r.cache n c = r.cache ++ [(n, c)] := by
    unfold set_move_to_end
    rw [eraseKey_of_lookup_none r.cache n hl]
  simp [Registry.get, make_cache_key, hl, hg, hsm]

theorem get_hit (r : Registry) (n : String) (c : Nat)
    (hl : List.lookup n r.cache = some c) :
    (r.get n true []).1 = .ok c ∧
    (r.get n true []).2.cache = eraseKey r.cache n ++ [(n, c)] ∧
    (r.get n true []).2.sources = r.sources ∧
    (r.get n true []).2.cacheMaxSize = r.cacheMaxSize := by
  have hmv : move_to_end r.cache n = eraseKey r.cache n ++ [(n, c)] := by
    unfold move_to_end
    rw [hl]
  simp [Registry.get, make_cache_key, hl, hmv]

theorem get_full_evict (r : Registry) (n : String) (c : Nat)
    (hl : List.lookup n r.cache = none)
    (hg : get_uncached r.sources n [] = .ok c)
    (hfull : r.cache.length = r.cacheMaxSize) :
    (r.get n true []).2.cache = (r.cache ++ [(n, c)]).drop 1 ∧
    (r.get n true []).2.sources = r.sources ∧
    (r.get n true []).2.cacheMaxSize = r.cacheMaxSize := by
  obtain ⟨_, hcache, hsrc, hmax⟩ := get_fresh_insert r n c hl hg
  refine ⟨?_, hsrc, hmax⟩
  rw [hcache]
  unfold evict_oldest
  have hone : (r.cache ++ [(n, c)]).length - r.cacheMaxSize = 1 := by
    rw [List.length_append, hfull]
    simp
  rw [hone]

theorem runGets_fill :
    ∀ (names : List String) (r : Registry) (f : String → Nat),
    (∀ n ∈ names, get_uncached r.sources n [] = .ok (f n)) →
    (∀ n ∈ names, List.lookup n r.cache = none) →
    names.Nodup →
    r.cache.length + names.length ≤ r.cacheMaxSize →
    (runGets r names).cache = r.cache ++ cacheEntries names f ∧
    (runGets r names).sources = r.sources ∧
    (runGets r names).cacheMaxSize = r.cacheMaxSize := by
  intro names
  induction names with
  | nil => intro r f _ _ _ _; exact ⟨by simp [runGets, cacheEntries], rfl, rfl⟩
  | cons n rest ih =>
    intro r f hok hfresh hnd hlen
    have hone := get_fresh_insert r n (f n) (hfresh n (List.mem_cons_self n rest))
      (hok n (List.mem_cons_self n rest))
    simp only [List.length_cons] at hlen
    have hcache1 : (r.get n true []).2.cache = r.cache ++ [(n, f n)] := by
      rw [hone.2.1, evict_oldest_of_le]
      rw [List.length_append]
      simp only [List.length_cons, List.length_nil]
      omega
    have hok1 : ∀ m ∈ rest, get_uncached (r.get n true []).2.sources m [] = .ok (f m) := by
      intro m hm
      rw [hone.2.2.1]
      exact hok m (List.mem_cons_of_mem n hm)
    have hfresh1 : ∀ m ∈ rest, List.lookup m (r.get n true []).2.cache = none := by
      intro m hm
      have hmn : m ≠ n := by
        intro he
        exact (List.nodup_cons.mp hnd).1 (he ▸ hm)
      rw [hcache1, lookup_append_chain, hfresh m (List.mem_cons_of_mem n hm),
        List.lookup_cons, beq_false_of_ne hmn]
      rfl
    have hlen1 : (r.get n true []).2.cache.length + rest.length
        ≤ (r.get n true []).2.cacheMaxSize := by
      rw [hcache1, hone.2.2.2, List.length_append]
      simp only [List.length_cons, List.length_nil]
      omega
    obtain ⟨ha, hb, hc⟩ := ih (r.get n true []).2 f hok1 hfresh1
      (List.nodup_cons.mp hnd).2 hlen1
    refine ⟨?_, ?_, ?_⟩
    · rw [runGets_cons, ha, hcache1]
      simp [cacheEntries]
    · rw [runGets_cons, hb, hone.2.2.1]
    · rw [runGets_cons, hc, hone.2.2.2]

/-- C4: the registry cache is LRU. Part 1: with `max_size = mid.length + 1`,
caching the `mid.length + 2` distinct keys `k0, mid…, kN` evicts exactly the
least-recently-used key `k0` and no other, preserving the order of the rest.
Part 2: with `max_size = mid.length + 2`, filling the cache with
`k0, k1, mid…`, then hitting `k0` (which moves it to most-recently-used),
then caching the fresh key `kN` keeps `k0` and evicts the next-oldest key
`k1` instead. -/
theorem c4_lru_eviction :
    (∀ (srcs : List Source) (f : String → Nat) (k0 : String) (mid : List String)
       (kN : String),
      (k0 :: (mid ++ [kN])).Nodup →
      (∀ n ∈ k0 :: (mid ++ [kN]), get_uncached srcs n [] = .ok (f n)) →
      (runGets ⟨srcs, [], mid.length + 1, 0, 0⟩ (k0 :: (mid ++ [kN]))).cache
        = cacheEntries (mid ++ [kN]) f) ∧
    (∀ (srcs : List Source) (f : String → Nat) (k0 k1 : String) (mid : List String)
       (kN : String),
      (k0 :: k1 :: (mid ++ [kN])).Nodup →
      (∀ n ∈ k0 :: k1 :: (mid ++ [kN]), get_uncached srcs n [] = .ok (f n)) →
      (lru_hit_scenario srcs k0 k1 mid kN).cache
          = cacheEntries mid f ++ [(k0, f k0), (kN, f kN)] ∧
        List.lookup k0 (lru_hit_scenario srcs k0 k1 mid kN).cache = some (f k0) ∧
        List.lookup k1 (lru_hit_scenario srcs k0 k1 mid kN).cache = none) := by
  constructor
  · intro srcs f k0 mid kN hnd hok
    have hsplit : (k0 :: (mid ++ [kN])) = (k0 :: mid) ++ [kN] := by simp
    rw [hsplit] at hnd
    obtain ⟨hndl, _, hdisj⟩ := List.nodup_append.mp hnd
    obtain ⟨ha, hb, hc⟩ := runGets_fill (k0 :: mid) ⟨srcs, [], mid.length + 1, 0, 0⟩ f
      (fun n hn => hok n (by rw [hsplit]; exact List.mem_append_left _ hn))
      (fun n _ => rfl) hndl (by simp)
    have hkNnotin : kN ∉ (k0 :: mid) := fun hm => hdisj hm (List.mem_singleton_self kN)
    have hlkN : List.lookup kN
        (runGets ⟨srcs, [], mid.length + 1, 0, 0⟩ (k0 :: mid)).cache = none := by
      rw [ha]
      simp only [List.nil_append]
      exact lookup_cacheEntries_none (k0 :: mid) f kN hkNnotin
    have hgkN : get_uncached
        (runGets ⟨srcs, [], mid.length + 1, 0, 0⟩ (k0 :: mid)).sources kN []
        = .ok (f kN) := by
      rw [hb]
      exact hok kN (by rw [hsplit]; exact List.mem_append_right _ (List.mem_singleton_self kN))
    have hfull : (runGets ⟨srcs, [], mid.length + 1, 0, 0⟩ (k0 :: mid)).cache.length
        = (runGets ⟨srcs, [], mid.length + 1, 0, 0⟩ (k0 :: mid)).cacheMaxSize := by
      rw [ha, hc]
      simp [cacheEntries]
    obtain ⟨hstep, _, _⟩ := get_full_evict _ kN (f kN) hlkN hgkN hfull
    rw [hsplit, runGets_append,
      show runGets (runGets ⟨srcs, [], mid.length + 1, 0, 0⟩ (k0 :: mid)) [kN]
        = ((runGets ⟨srcs, [], mid.length + 1, 0, 0⟩ (k0 :: mid)).get kN true []).2
        from rfl,
      hstep, ha]
    simp [cacheEntries]
  · intro srcs f k0 k1 mid kN hnd hok
    obtain ⟨hk0n, hnd1⟩ := List.nodup_cons.mp hnd
    obtain ⟨hk1n, hnd2⟩ := List.nodup_cons.mp hnd1
    have hk0k1 : k0 ≠ k1 := fun he => hk0n (he ▸ List.mem_cons_self _ _)
    have hk0mid : k0 ∉ mid :=
      fun hm => hk0n (List.mem_cons_of_mem _ (List.mem_append_left _ hm))
    have hk0kN : k0 ≠ kN := fun he =>
      hk0n (List.mem_cons_of_mem _
        (List.mem_append_right _ (he ▸ List.mem_singleton_self _)))
    have hk1mid : k1 ∉ mid := fun hm => hk1n (List.mem_append_left _ hm)
    have hk1kN : k1 ≠ kN :=
      fun he => hk1n (List.mem_append_right _ (he ▸ List.mem_singleton_self _))
    obtain ⟨hmidnd, _, hdisj2⟩ := List.nodup_append.mp hnd2
    have hkNmid : kN ∉ mid := fun hm => hdisj2 hm (List.mem_singleton_self _)
    have hfillnd : (k0 :: k1 :: mid).Nodup := by
      refine List.nodup_cons.mpr ⟨?_, List.nodup_cons.mpr ⟨hk1mid, hmidnd⟩⟩
      intro hm
      rcases List.mem_cons.mp hm with he | hm'
      · exact hk0k1 he
      · exact hk0mid hm'
    have hokfill : ∀ n ∈ (k0 :: k1 :: mid),
        get_uncached srcs n [] = .ok (f n) := by
      intro n hn
      refine hok n ?_
      rcases List.mem_cons.mp hn with rfl | hn1
      · exact List.mem_cons_self _ _
      rcases List.mem_cons.mp hn1 with rfl | hn2
      · exact List.mem_cons_of_mem _ (List.mem_cons_self _ _)
      · exact List.mem_cons_of_mem _
          (List.mem_cons_of_mem _ (List.mem_append_left _ hn2))
    obtain ⟨ha, hb, hc⟩ := runGets_fill (k0 :: k1 :: mid)
      ⟨srcs, [], mid.length + 2, 0, 0⟩ f hokfill (fun n _ => rfl) hfillnd (by simp)
    have hlk0 : List.lookup k0
        (runGets ⟨srcs, [], mid.length + 2, 0, 0⟩ (k0 :: k1 :: mid)).cache
        = some (f k0) := by
      rw [ha]
      simp [cacheEntries]
    have hhit := get_hit _ k0 (f k0) hlk0
    have hk0rest : k0 ∉ (k1 :: mid) := by
      intro hm
      rcases List.mem_cons.mp hm with he | hm'
      · exact hk0k1 he
      · exact hk0mid hm'
    have hcache2 :
        ((runGets ⟨srcs, [], mid.length + 2, 0, 0⟩ (k0 :: k1 :: mid)).get
            k0 true []).2.cache
          = cacheEntries (k1 :: mid) f ++ [(k0, f k0)] := by
      rw [hhit.2.1, ha]
      simp only [List.nil_append]
      congr 1
      show eraseKey ((k0, f k0) :: cacheEntries (k1 :: mid) f) k0
        = cacheEntries (k1 :: mid) f
      unfold eraseKey
      rw [List.filter_cons]
      simp only [bne_self_eq_false]
      rw [if_neg Bool.false_ne_true]
      exact eraseKey_of_lookup_none _ _
        (lookup_cacheEntries_none (k1 :: mid) f k0 hk0rest)
    have hkN2 : kN ∉ (k1 :: mid) := by
      intro hm
      rcases List.mem_cons.mp hm with he | hm'
      · exact hk1kN he.symm
      · exact hkNmid hm'
    have hlkN : List.lookup kN
        ((runGets ⟨srcs, [], mid.length + 2, 0, 0⟩ (k0 :: k1 :: mid)).get
          k0 true []).2.cache = none := by
      rw [hcache2, lookup_append_chain,
        lookup_cacheEntries_none (k1 :: mid) f kN hkN2,
        List.lookup_cons, beq_false_of_ne (fun he => hk0kN he.symm)]
      rfl
    have hgkN : get_uncached
        ((runGets ⟨srcs, [], mid.length + 2, 0, 0⟩ (k0 :: k1 :: mid)).get
          k0 true []).2.sources kN [] = .ok (f kN) := by
      rw [hhit.2.2.1, hb]
      exact hok kN (List.mem_cons_of_mem _ (List.mem_cons_of_mem _
        (List.mem_append_right _ (List.mem_singleton_self _))))
    have hfull2 :
        ((runGets ⟨srcs, [], mid.length + 2, 0, 0⟩ (k0 :: k1 :: mid)).get
            k0 true []).2.cache.length
          = ((runGets ⟨srcs, [], mid.length + 2, 0, 0⟩ (k0 :: k1 :: mid)).get
              k0 true []).2.cacheMaxSize := by
      rw [hcache2, hhit.2.2.2, hc, List.length_append]
      simp [cacheEntries]
    obtain ⟨hstep, _, _⟩ := get_full_evict _ kN (f kN) hlkN hgkN hfull2
    have hfinal : (lru_hit_scenario srcs k0 k1 mid kN).cache
        = cacheEntries mid f ++ [(k0, f k0), (kN, f kN)] := by
      show ((((runGets ⟨srcs, [], mid.length + 2, 0, 0⟩ (k0 :: k1 :: mid)).get
          k0 true []).2.get kN true []).2.cache = _)
      rw [hstep, hcache2]
      simp [cacheEntries]
    refine ⟨hfinal, ?_, ?_⟩
    · rw [hfinal, lookup_append_chain, lookup_cacheEntries_none mid f k0 hk0mid,
        List.lookup_cons]
      simp
    · rw [hfinal, lookup_append_chain, lookup_cacheEntries_none mid f k1 hk1mid,
        List.lookup_cons, beq_false_of_ne (fun he => hk0k1 he.symm),
        List.lookup_cons, beq_false_of_ne hk1kN]
      rfl

/-- Witness for C4: capacity 2 with keys a, b, c (part 1: a is evicted), and
capacity 2 with fill a, b, hit a, insert c (part 2: b is evicted, a kept). -/
theorem c4_lru_eviction_witness :
    ((runGets ⟨[⟨"s", fun _ _ => SourceResult.success 0⟩], [], List.length ["b"] + 1, 0, 0⟩
        ("a" :: (["b"] ++ ["c"]))).cache
      = cacheEntries (["b"] ++ ["c"]) (fun _ => 0)) ∧
    ((lru_hit_scenario [⟨"s", fun _ _ => SourceResult.success 0⟩] "a" "b" [] "c").cache
        = cacheEntries [] (fun _ => 0) ++ [("a", 0), ("c", 0)] ∧
      List.lookup "a"
          (lru_hit_scenario [⟨"s", fun _ _ => SourceResult.success 0⟩] "a" "b" [] "c").cache
        = some 0 ∧
      List.lookup "b"
          (lru_hit_scenario [⟨"s", fun _ _ => SourceResult.success 0⟩] "a" "b" [] "c").cache
        = none) :=
  ⟨c4_lru_eviction.1 [⟨"s", fun _ _ => SourceResult.success 0⟩] (fun _ => 0)
      "a" ["b"] "c" (by decide) (by decide),
   c4_lru_eviction.2 [⟨"s", fun _ _ => SourceResult.success 0⟩] (fun _ => 0)
      "a" "b" [] "c" (by decide) (by decide)⟩

end SemiCad
